import Mathlib

/-!
Verification of the symbolic probabilistic-circuit core of the `cirkit`
repository, by shallow embedding of the relevant Python modules:

* `cirkit/symbolic/symb_circuit.py` — the symbolic circuit IR, its
  structural-property predicates and its topological views;
* `cirkit/symbolic/functional.py` — `integrate` and `multiply`;
* `cirkit/symbolic/operators.py` — the layer multiplication rewrite rules;
* `cirkit/symbolic/params.py` — the parameter expression shape rules;
* `cirkit/symbolic/layers.py` — the `CategoricalLayer` constructor;
* `cirkit/backend/torch/rules/parameters.py` — tensor-parameter compilation.

Machine-level details that do not matter here (tensor storage, torch dtypes)
are abstracted; graph structure, shape arithmetic, and control flow are
translated line by line from the source.  Python exceptions are modelled by
an explicit error type, and functions that can raise return `Except`.
-/

namespace Cirkit

/-- Modelled from the spec (§3, §4.1): `Scope` is an immutable set of
non-negative integers with union, intersection and subset tests.
The class itself lives in `cirkit/utils/scope.py`, outside `src/`. -/
abbrev Scope := Finset ℕ

/-- The Python exception classes the embedded code can raise, together with
the two classes named by the spec's error taxonomy (§7) that the code never
defines nor raises (`ShapeError`, `CyclicGraphError`); the latter are listed
so that statements about them can be expressed. -/
inductive PyErr where
  | structuralPropertyError
  | valueError
  | notImplementedError
  | assertionError
  | keyError
  | shapeError
  | cyclicGraphError
  deriving DecidableEq

/-- The kind of a symbolic layer, standing for its Python class:
`input` for `SymbInputLayer` subclasses holding a distribution,
`constant` for the constant / log-partition input layers produced by
integration (also `SymbInputLayer` subclasses), `sum` for `SymbSumLayer`
subclasses (including the mixing layer), `prod` for `SymbProdLayer`. -/
inductive LayerKind where
  | input
  | constant
  | sum
  | prod
  deriving DecidableEq

/-- A symbolic layer as used by `symb_circuit.py` and `functional.py`.
Python compares layers by object identity; the `uid` field models that
identity.  `numUnits` is the number of output units and `arity` the number
of input layers (`num_channels` for input layers). -/
structure SymbLayer where
  uid : ℕ
  kind : LayerKind
  scope : Scope
  numUnits : ℕ
  arity : ℕ
  deriving DecidableEq

/-- Is the layer an instance of `SymbInputLayer`? -/
def SymbLayer.isInput (sl : SymbLayer) : Bool :=
  sl.kind = LayerKind.input ∨ sl.kind = LayerKind.constant

/-- Adjacency maps (`in_layers` / `out_layers`) are Python `defaultdict(list)`
objects keyed by layer identity: an association list keyed by `uid`. -/
abbrev LayerMap := List (ℕ × List SymbLayer)

/-- Embeds `defaultdict(list)` lookup: the stored list, or `[]` for a missing key. -/
def LayerMap.get (m : LayerMap) (k : ℕ) : List SymbLayer :=
  match m.find? (fun e => e.1 = k) with
  | some e => e.2
  | none => []

/-- Embeds `SymbCircuit` from `cirkit/symbolic/symb_circuit.py`: a scope, the list
of layers (insertion order), and the two adjacency maps. -/
structure SymbCircuit where
  scope : Scope
  layers : List SymbLayer
  inLayers : LayerMap
  outLayers : LayerMap
  deriving DecidableEq

namespace SymbCircuit

/-- Embeds `layer_inputs` / `self._in_layers[sl]`. -/
def layerInputs (c : SymbCircuit) (sl : SymbLayer) : List SymbLayer :=
  c.inLayers.get sl.uid

/-- Embeds `sum_layers`: the layers that are instances of `SymbSumLayer`. -/
def sumLayers (c : SymbCircuit) : List SymbLayer :=
  c.layers.filter (fun sl => sl.kind = LayerKind.sum)

/-- Embeds `product_layers`: the layers that are instances of `SymbProdLayer`. -/
def productLayers (c : SymbCircuit) : List SymbLayer :=
  c.layers.filter (fun sl => sl.kind = LayerKind.prod)

/-- Embeds `input_layers`: the layers that are instances of `SymbInputLayer`. -/
def inputLayers (c : SymbCircuit) : List SymbLayer :=
  c.layers.filter SymbLayer.isInput

/-- Embeds `inner_layers`: the layers with a non-empty `in_layers` entry. -/
def innerLayers (c : SymbCircuit) : List SymbLayer :=
  c.layers.filter (fun sl => ¬(c.inLayers.get sl.uid).isEmpty)

/-- Embeds `output_layers`: the layers with an empty `out_layers` entry. -/
def outputLayers (c : SymbCircuit) : List SymbLayer :=
  c.layers.filter (fun sl => (c.outLayers.get sl.uid).isEmpty)

/-- Embeds `is_smooth` (symb_circuit.py, lines 136-142): every direct input of every
sum layer has the same scope as the sum layer itself. -/
def isSmooth (c : SymbCircuit) : Bool :=
  (c.sumLayers).all (fun sum_sl =>
    (c.layerInputs sum_sl).all (fun in_sl => sum_sl.scope = in_sl.scope))

/-- Embeds `itertools.combinations(xs, 2)`: all pairs with the first component
strictly before the second in the list. -/
def combinations2 : List SymbLayer → List (SymbLayer × SymbLayer)
  | [] => []
  | x :: xs => (xs.map (fun y => (x, y))) ++ combinations2 xs

/-- Embeds `is_decomposable` (symb_circuit.py, lines 144-150).  The source computes
`lhs_in_sl.scope & lhs_in_sl.scope` for every 2-combination of a product
layer's inputs — the left operand's scope intersected with itself, the right
operand `rhs_in_sl` being bound but unused — and requires all such
intersections to be falsy (empty). -/
def isDecomposable (c : SymbCircuit) : Bool :=
  !((c.productLayers).any (fun prod_sl =>
    (combinations2 (c.layerInputs prod_sl)).any (fun q =>
      (q.1.scope ∩ q.1.scope).Nonempty)))

end SymbCircuit

/-! Concrete circuits used to evaluate the embedded code. -/

/-- An input layer over variable 0. -/
def exInput0 : SymbLayer := ⟨0, LayerKind.input, {0}, 1, 1⟩

/-- An input layer over variable 1. -/
def exInput1 : SymbLayer := ⟨1, LayerKind.input, {1}, 1, 1⟩

/-- A product layer over variables 0 and 1. -/
def exProd01 : SymbLayer := ⟨2, LayerKind.prod, {0, 1}, 1, 2⟩

/-- A decomposable two-input product circuit: the product layer's two direct
inputs have the pairwise-disjoint scopes `{0}` and `{1}`. -/
def exProdCircuit : SymbCircuit :=
  ⟨{0, 1}, [exInput0, exInput1, exProd01],
   [(2, [exInput0, exInput1])],
   [(0, [exProd01]), (1, [exProd01])]⟩

/-!
Embedding of `cirkit/symbolic/params.py`: the parameter-expression shape rules.  A node's
only observable here is its `shape` (a tuple of dimensions); operands are
therefore represented by their shapes.  The Python constructors validate the
operand shapes with `assert` statements — a violated `assert` raises
`AssertionError` — and the `shape` property is a pure function of the operand
shapes.  Each embedded constructor returns the constructed node's shape, or
the error the construction raises.
-/

/-- Embeds `HadamardParameter.__init__` (params.py, lines 81-88): asserts
`opd1.shape == opd2.shape`; the node's shape is `opd1.shape`. -/
def hadamardParameter (s1 s2 : List ℕ) : Except PyErr (List ℕ) :=
  if s1 = s2 then Except.ok s1 else Except.error PyErr.assertionError

/-- Embeds `KroneckerParameter.__init__` (params.py, lines 91-98): asserts
`len(opd1.shape) == len(opd2.shape)`; the node's shape is
`tuple(opd1.shape[i] * opd2.shape[i] for i in range(len(opd1.shape)))`. -/
def kroneckerParameter (s1 s2 : List ℕ) : Except PyErr (List ℕ) :=
  if s1.length = s2.length then Except.ok (List.zipWith (· * ·) s1 s2)
  else Except.error PyErr.assertionError

/-- Python negative-axis normalization: `axis if axis >= 0 else axis + rank`. -/
def normAxis (axis : ℤ) (rank : ℕ) : ℤ :=
  if 0 ≤ axis then axis else axis + rank

/-- Embeds `OuterProductParameter.__init__` (params.py, lines 101-120): asserts equal
ranks, `0 <= axis < rank` after normalization, and that the shapes agree
before and after `axis`; the node's shape replaces the dimension at `axis`
by `p1.shape[axis] * p2.shape[axis]`. -/
def outerProductParameter (s1 s2 : List ℕ) (axis : ℤ) : Except PyErr (List ℕ) :=
  if s1.length = s2.length then
    if 0 ≤ normAxis axis s1.length ∧ normAxis axis s1.length < (s1.length : ℤ) then
      if s1.take (normAxis axis s1.length).toNat = s2.take (normAxis axis s1.length).toNat then
        if s1.drop ((normAxis axis s1.length).toNat + 1) =
            s2.drop ((normAxis axis s1.length).toNat + 1) then
          Except.ok
            (s1.take (normAxis axis s1.length).toNat ++
              (s1.getD (normAxis axis s1.length).toNat 0 *
                s2.getD (normAxis axis s1.length).toNat 0) ::
                s1.drop ((normAxis axis s1.length).toNat + 1))
        else Except.error PyErr.assertionError
      else Except.error PyErr.assertionError
    else Except.error PyErr.assertionError
  else Except.error PyErr.assertionError

/-- Embeds `ReduceOpParameter.__init__` (params.py, lines 152-165), shared by
`ReduceSumParameter`, `ReduceProductParameter` and `ReduceLSEParameter`:
asserts `0 <= axis < rank` after normalization; the node's shape drops the
dimension at `axis`. -/
def reduceOpParameter (s : List ℕ) (axis : ℤ) : Except PyErr (List ℕ) :=
  if 0 ≤ normAxis axis s.length ∧ normAxis axis s.length < (s.length : ℤ) then
    Except.ok (s.take (normAxis axis s.length).toNat ++
      s.drop ((normAxis axis s.length).toNat + 1))
  else Except.error PyErr.assertionError

/-- Embeds `ReduceSumParameter` (params.py, line 208): inherits the
`ReduceOpParameter` behaviour unchanged. -/
def reduceSumParameter (s : List ℕ) (axis : ℤ) : Except PyErr (List ℕ) :=
  reduceOpParameter s axis

/-- Embeds `ReduceProductParameter` (params.py, line 212). -/
def reduceProductParameter (s : List ℕ) (axis : ℤ) : Except PyErr (List ℕ) :=
  reduceOpParameter s axis

/-- Embeds `ReduceLSEParameter` (params.py, line 216). -/
def reduceLSEParameter (s : List ℕ) (axis : ℤ) : Except PyErr (List ℕ) :=
  reduceOpParameter s axis

/-! Small list lemmas used to restate the shape computations structurally. -/

theorem listGetD_zipWithMul : ∀ (l1 l2 : List ℕ) (i : ℕ), i < l1.length → i < l2.length →
    (List.zipWith (· * ·) l1 l2).getD i 0 = l1.getD i 0 * l2.getD i 0 := by
  intro l1
  induction l1 with
  | nil => intro l2 i h1 _; exact absurd h1 (by simp)
  | cons x xs ih =>
    intro l2 i h1 h2
    cases l2 with
    | nil => exact absurd h2 (by simp)
    | cons y ys =>
      cases i with
      | zero => rfl
      | succ j =>
        simp only [List.zipWith_cons_cons, List.getD_cons_succ]
        exact ih ys j (by simpa using h1) (by simpa using h2)

theorem listLength_zipWithMul (l1 l2 : List ℕ) :
    (List.zipWith (· * ·) l1 l2).length = min l1.length l2.length := by
  simp [List.length_zipWith]

theorem listTake_append_cons_drop_eq_set : ∀ (l : List ℕ) (a x : ℕ), a < l.length →
    l.take a ++ x :: l.drop (a + 1) = l.set a x := by
  intro l
  induction l with
  | nil => intro a x h; exact absurd h (by simp)
  | cons y ys ih =>
    intro a x h
    cases a with
    | zero => rfl
    | succ b =>
      simp only [List.take, List.drop, List.set, List.cons_append, List.cons.injEq, true_and]
      exact ih b x (by simpa using Nat.lt_of_succ_lt_succ h)

theorem listTake_append_drop_eq_eraseIdx : ∀ (l : List ℕ) (a : ℕ),
    l.take a ++ l.drop (a + 1) = l.eraseIdx a := by
  intro l
  induction l with
  | nil => intro a; cases a <;> rfl
  | cons y ys ih =>
    intro a
    cases a with
    | zero => rfl
    | succ b =>
      simp only [List.take, List.drop, List.eraseIdx, List.cons_append, List.cons.injEq, true_and]
      exact ih b

theorem listExt_getD : ∀ (l1 l2 : List ℕ), l1.length = l2.length →
    (∀ i, l1.getD i 0 = l2.getD i 0) → l1 = l2 := by
  intro l1
  induction l1 with
  | nil => intro l2 h _; cases l2 with
    | nil => rfl
    | cons y ys => exact absurd h (by simp)
  | cons x xs ih =>
    intro l2 h hp
    cases l2 with
    | nil => exact absurd h (by simp)
    | cons y ys =>
      have hx : x = y := hp 0
      have hxs : xs = ys := ih ys (by simpa using h) (fun i => hp (i + 1))
      rw [hx, hxs]

theorem listGetD_take : ∀ (l : List ℕ) (a i : ℕ), i < a →
    (l.take a).getD i 0 = l.getD i 0 := by
  intro l
  induction l with
  | nil => intro a i _; simp [List.take]
  | cons x xs ih =>
    intro a i hia
    cases a with
    | zero => exact absurd hia (by omega)
    | succ b =>
      cases i with
      | zero => rfl
      | succ j =>
        simp only [List.take_succ_cons, List.getD_cons_succ]
        exact ih b j (by omega)

theorem listGetD_drop : ∀ (l : List ℕ) (a i : ℕ),
    (l.drop a).getD i 0 = l.getD (a + i) 0 := by
  intro l
  induction l with
  | nil => intro a i; simp [List.drop]
  | cons x xs ih =>
    intro a i
    cases a with
    | zero => simp
    | succ b =>
      rw [List.drop_succ_cons, ih b i]
      have h : b + 1 + i = (b + i) + 1 := by omega
      rw [h, List.getD_cons_succ]

/-!
Embedding of `cirkit/symbolic/layers.py`: the `CategoricalLayer` constructor and its
`params` view.  A symbolic `Parameter` is observed here only through its
`shape`; `CatParam.tensorLeaf` stands for
`Parameter.from_leaf(TensorParameter(*shape, initializer=NormalInitializer()))`
(the default, learnable, leaf tensor), while `CatParam.given` stands for any
caller-provided parameter expression.
-/

/-- A symbolic parameter as observed by `CategoricalLayer`. -/
inductive CatParam where
  | tensorLeaf (shape : List ℕ) (learnable : Bool)
  | given (shape : List ℕ) (tag : ℕ)
  deriving DecidableEq

/-- The `shape` of a symbolic parameter. -/
def CatParam.shape : CatParam → List ℕ
  | tensorLeaf s _ => s
  | given s _ => s

/-- A constructed `CategoricalLayer` (layers.py): an input layer over a
singleton scope holding either `logits` or `probs`. -/
structure CategoricalLayer where
  scope : Scope
  numOutputUnits : ℕ
  numChannels : ℕ
  numCategories : ℕ
  logits : Option CatParam
  probs : Option CatParam
  deriving DecidableEq

/-- Embeds `CategoricalLayer.probs_logits_shape` (layers.py, lines 173-175). -/
def CategoricalLayer.probsLogitsShape (l : CategoricalLayer) : List ℕ :=
  [l.numOutputUnits, l.numChannels, l.numCategories]

/-- Embeds `CategoricalLayer.params` (layers.py, lines 183-187): a one-entry map,
`probs` when `logits` is `None` and `logits` otherwise. -/
def CategoricalLayer.paramsMap (l : CategoricalLayer) :
    List (String × Option CatParam) :=
  if l.logits.isNone then [("probs", l.probs)] else [("logits", l.logits)]

/-- The default-creation block of `CategoricalLayer.__init__` (layers.py,
lines 153-161): when neither `logits` nor `probs` is given, apply
`logits_factory` if present, else `probs_factory` if present, else create a
default learnable logits tensor with a `NormalInitializer`. -/
def categoricalDefaults (shape : List ℕ) (logits probs : Option CatParam)
    (logitsFactory probsFactory : Option (List ℕ → CatParam)) :
    Option CatParam × Option CatParam :=
  if logits.isNone ∧ probs.isNone then
    match logitsFactory with
    | some f => (some (f shape), probs)
    | none =>
      match probsFactory with
      | some f => (logits, some (f shape))
      | none => (some (CatParam.tensorLeaf shape true), probs)
  else (logits, probs)

/-- Does an optionally-present parameter violate the required shape?
Models `X is not None and X.shape != self.probs_logits_shape`. -/
def optShapeBad (o : Option CatParam) (shape : List ℕ) : Bool :=
  match o with
  | some p => p.shape ≠ shape
  | none => false

/-- Embeds `CategoricalLayer.__init__` (layers.py, lines 129-171): the validation
chain (singleton scope, at most one of `logits`/`probs`, at most one of the
two factories, at least two categories), then default creation, then the
shape checks, in source order. -/
def categoricalLayerInit (scope : Scope)
    (numOutputUnits numChannels numCategories : ℕ)
    (logits probs : Option CatParam)
    (logitsFactory probsFactory : Option (List ℕ → CatParam)) :
    Except PyErr CategoricalLayer :=
  if scope.card ≠ 1 then Except.error PyErr.valueError
  else if logits.isSome ∧ probs.isSome then Except.error PyErr.valueError
  else if logitsFactory.isSome ∧ probsFactory.isSome then
    Except.error PyErr.valueError
  else if numCategories < 2 then Except.error PyErr.valueError
  else
    if optShapeBad
        (categoricalDefaults [numOutputUnits, numChannels, numCategories]
          logits probs logitsFactory probsFactory).1
        [numOutputUnits, numChannels, numCategories] then
      Except.error PyErr.valueError
    else if optShapeBad
        (categoricalDefaults [numOutputUnits, numChannels, numCategories]
          logits probs logitsFactory probsFactory).2
        [numOutputUnits, numChannels, numCategories] then
      Except.error PyErr.valueError
    else
      Except.ok
        ⟨scope, numOutputUnits, numChannels, numCategories,
          (categoricalDefaults [numOutputUnits, numChannels, numCategories]
            logits probs logitsFactory probsFactory).1,
          (categoricalDefaults [numOutputUnits, numChannels, numCategories]
            logits probs logitsFactory probsFactory).2⟩

/-!
Embedding of `cirkit/symbolic/operators.py`: the layer multiplication rewrite rules.
Parameters of the produced layers are expressions over references
(`PlaceholderParameter(layer, name)`) to the operand layers' parameter slots;
operand layers are identified by `uid`.  The layer classes follow
`cirkit/symbolic/layers.py`: for an input layer `num_input_units` is
`len(scope)`, for a Hadamard product layer `num_output_units` is
`num_input_units`, and for a mixing sum layer `num_output_units` equals
`num_input_units` (`num_units`).
-/

/-- A symbolic parameter expression as built by the multiplication rules. -/
inductive SymParam where
  | placeholder (layerUid : ℕ) (name : String)
  | kronecker (lhs rhs : SymParam) (axis : Option ℤ)
  | reduceSum (opd : SymParam) (axis : ℤ)
  | meanNormalProduct (m1 m2 v1 v2 : SymParam)
  | varianceNormalProduct (v1 v2 : SymParam)
  | partitionGaussianProduct (m1 m2 v1 v2 : SymParam)
  deriving DecidableEq

namespace Ops

/-- Embeds `CategoricalLayer` as consumed and produced by
`multiply_categorical_layers`. -/
structure Categorical where
  uid : ℕ
  scope : Scope
  numOutputUnits : ℕ
  numChannels : ℕ
  probs : Option SymParam
  partition : Option SymParam
  deriving DecidableEq

/-- Embeds `InputLayer.num_input_units` is `len(scope)` (layers.py, line 100). -/
def Categorical.numInputUnits (l : Categorical) : ℕ :=
  l.scope.card

/-- Embeds `GaussianLayer` as consumed and produced by `multiply_gaussian_layers`. -/
structure Gaussian where
  uid : ℕ
  scope : Scope
  numOutputUnits : ℕ
  numChannels : ℕ
  mean : Option SymParam
  variance : Option SymParam
  partition : Option SymParam
  deriving DecidableEq

/-- Embeds `InputLayer.num_input_units` is `len(scope)` (layers.py, line 100). -/
def Gaussian.numInputUnits (l : Gaussian) : ℕ :=
  l.scope.card

/-- Embeds `HadamardLayer` (layers.py, lines 285-297). -/
structure Hadamard where
  uid : ℕ
  scope : Scope
  numInputUnits : ℕ
  arity : ℕ
  deriving DecidableEq

/-- Embeds `HadamardLayer.num_prod_units(in_num_units) = in_num_units`. -/
def Hadamard.numOutputUnits (l : Hadamard) : ℕ :=
  l.numInputUnits

/-- Embeds `HadamardLayer.__init__`: raises `ValueError` when `arity < 2`; the new
object's identity (`uid := 0`) is fresh and never referenced by the rules. -/
def hadamardLayerNew (scope : Scope) (numInputUnits arity : ℕ) :
    Except PyErr Hadamard :=
  if arity < 2 then Except.error PyErr.valueError
  else Except.ok ⟨0, scope, numInputUnits, arity⟩

/-- Embeds `DenseLayer` (layers.py, lines 320-357); the weight-shape check is not
modelled because a placeholder's shape is not derivable from the layer
alone. -/
structure Dense where
  uid : ℕ
  scope : Scope
  numInputUnits : ℕ
  numOutputUnits : ℕ
  weight : SymParam
  deriving DecidableEq

/-- Embeds `MixingLayer` (layers.py, lines 360-393): `num_input_units` and
`num_output_units` are both `num_units`. -/
structure Mixing where
  uid : ℕ
  scope : Scope
  numUnits : ℕ
  arity : ℕ
  weight : SymParam
  deriving DecidableEq

/-- Embeds `MixingLayer` output units: `num_units`. -/
def Mixing.numOutputUnits (l : Mixing) : ℕ :=
  l.numUnits

/-- Embeds `multiply_categorical_layers` (operators.py, lines 41-53): asserts equal
`num_channels`, then builds a Categorical layer over the union scope with
`lhs.num_output_units * rhs.num_input_units` output units, whose `probs` is
the axis-2 Kronecker of placeholders to the operands' `probs`, and whose
`partition` reduce-sums that product over axis 3. -/
def multiplyCategoricalLayers (lhs rhs : Categorical) :
    Except PyErr Categorical :=
  if lhs.numChannels ≠ rhs.numChannels then Except.error PyErr.assertionError
  else
    Except.ok
      ⟨0, lhs.scope ∪ rhs.scope, lhs.numOutputUnits * rhs.numInputUnits,
        lhs.numChannels,
        some (SymParam.kronecker (SymParam.placeholder lhs.uid "probs")
          (SymParam.placeholder rhs.uid "probs") (some 2)),
        some (SymParam.reduceSum
          (SymParam.kronecker (SymParam.placeholder lhs.uid "probs")
            (SymParam.placeholder rhs.uid "probs") (some 2)) 3)⟩

/-- Embeds `multiply_gaussian_layers` (operators.py, lines 56-70): asserts equal
`num_channels`, then builds a Gaussian layer over the union scope with
`lhs.num_output_units * rhs.num_input_units` output units and the
closed-form Gaussian-product parameter compositions. -/
def multiplyGaussianLayers (lhs rhs : Gaussian) : Except PyErr Gaussian :=
  if lhs.numChannels ≠ rhs.numChannels then Except.error PyErr.assertionError
  else
    Except.ok
      ⟨0, lhs.scope ∪ rhs.scope, lhs.numOutputUnits * rhs.numInputUnits,
        lhs.numChannels,
        some (SymParam.meanNormalProduct
          (SymParam.placeholder lhs.uid "mean")
          (SymParam.placeholder rhs.uid "mean")
          (SymParam.placeholder lhs.uid "variance")
          (SymParam.placeholder rhs.uid "variance")),
        some (SymParam.varianceNormalProduct
          (SymParam.placeholder lhs.uid "variance")
          (SymParam.placeholder rhs.uid "variance")),
        some (SymParam.partitionGaussianProduct
          (SymParam.placeholder lhs.uid "mean")
          (SymParam.placeholder rhs.uid "mean")
          (SymParam.placeholder lhs.uid "variance")
          (SymParam.placeholder rhs.uid "variance"))⟩

/-- Embeds `multiply_hadamard_layers` (operators.py, lines 73-79): a Hadamard layer
over the union scope with `lhs.num_input_units * rhs.num_input_units` input
units and arity `max(lhs.arity, rhs.arity)`. -/
def multiplyHadamardLayers (lhs rhs : Hadamard) : Except PyErr Hadamard :=
  hadamardLayerNew (lhs.scope ∪ rhs.scope)
    (lhs.numInputUnits * rhs.numInputUnits) (max lhs.arity rhs.arity)

/-- Embeds `multiply_dense_layers` (operators.py, lines 94-103): a Dense layer over
the union scope with `lhs.num_input_units * rhs.num_input_units` input units,
`lhs.num_output_units * rhs.num_output_units` output units, and the
Kronecker of placeholders to the operands' weights. -/
def multiplyDenseLayers (lhs rhs : Dense) : Dense :=
  ⟨0, lhs.scope ∪ rhs.scope, lhs.numInputUnits * rhs.numInputUnits,
    lhs.numOutputUnits * rhs.numOutputUnits,
    SymParam.kronecker (SymParam.placeholder lhs.uid "weight")
      (SymParam.placeholder rhs.uid "weight") none⟩

/-- Embeds `multiply_mixing_layers` (operators.py, lines 106-115): a Mixing layer
over the union scope with `lhs.num_input_units * rhs.num_input_units` units,
arity `lhs.arity * rhs.arity`, and the Kronecker of placeholders to the
operands' weights. -/
def multiplyMixingLayers (lhs rhs : Mixing) : Mixing :=
  ⟨0, lhs.scope ∪ rhs.scope, lhs.numUnits * rhs.numUnits,
    lhs.arity * rhs.arity,
    SymParam.kronecker (SymParam.placeholder lhs.uid "weight")
      (SymParam.placeholder rhs.uid "weight") none⟩

end Ops

/-- A 3-output-unit Categorical operand over variable 0. -/
def exCatA : Ops.Categorical := ⟨10, {0}, 3, 1, none, none⟩

/-- A 2-output-unit Categorical operand over variable 0. -/
def exCatB : Ops.Categorical := ⟨11, {0}, 2, 1, none, none⟩

/-- A 3-output-unit Gaussian operand over variable 1. -/
def exGaussA : Ops.Gaussian := ⟨20, {1}, 3, 1, none, none, none⟩

/-- A 2-output-unit Gaussian operand over variable 1. -/
def exGaussB : Ops.Gaussian := ⟨21, {1}, 2, 1, none, none, none⟩

/-- A 3-unit Hadamard operand over variables 0 and 1. -/
def exHadA : Ops.Hadamard := ⟨30, {0, 1}, 3, 2⟩

/-- A 2-unit Hadamard operand over variables 0 and 1. -/
def exHadB : Ops.Hadamard := ⟨31, {0, 1}, 2, 2⟩

/-!
Embedding of `cirkit/backend/torch/rules/parameters.py`: compilation of symbolic leaf
parameters.  The compiler state class (`cirkit/backend/compiler.py`) is not
under `src/`, so its cache is modelled from the spec; the two compilation
rules themselves are translated from the source.
-/

/-- A symbolic `TensorParameter` leaf: identity (`uid`), shape, learnability,
and references to its initializer and dtype objects. -/
structure TensorParameter where
  uid : ℕ
  shape : List ℕ
  learnable : Bool
  initializer : ℕ
  dtype : ℕ
  deriving DecidableEq

/-- A symbolic `ConstantParameter` leaf: identity, shape, and its
(constant-value) initializer. -/
structure ConstantParameter where
  uid : ℕ
  shape : List ℕ
  initializer : ℕ
  deriving DecidableEq

/-- A materialized `TorchTensorParameter`: `mid` is the identity of the
allocated storage; `dtype` is `none` when compiled with the default dtype
(as `compile_constant_parameter` does). -/
structure TorchTensorParameter where
  mid : ℕ
  shape : List ℕ
  requiresGrad : Bool
  initializer : ℕ
  dtype : Option ℕ
  deriving DecidableEq

/-- The result of compiling a leaf parameter: a fresh materialization, or a
`TorchPointerParameter` referencing an existing one plus its fold index. -/
inductive CompiledParam where
  | tensor (t : TorchTensorParameter)
  | pointer (t : TorchTensorParameter) (foldIdx : ℕ)
  deriving DecidableEq

/-- Modelled from the spec (§3, §4.6, §5): the compiler state's
compiled-parameter cache — an identity-keyed, append-only mapping from
symbolic parameter identity to (compiled parameter, fold index) — together
with a supply of fresh materialization identities.  The class itself lives
in `cirkit/backend/compiler.py`, outside `src/`. -/
structure CompilerState where
  compiledParams : List (ℕ × TorchTensorParameter × ℕ)
  nextMid : ℕ
  deriving DecidableEq

/-- Embeds `retrieve_compiled_parameter`: identity-keyed cache lookup. -/
def CompilerState.lookup (s : CompilerState) (uid : ℕ) :
    Option (TorchTensorParameter × ℕ) :=
  match s.compiledParams.find? (fun e => e.1 = uid) with
  | some e => some e.2
  | none => none

/-- Embeds `has_compiled_parameter`. -/
def CompilerState.hasCompiledParameter (s : CompilerState) (uid : ℕ) : Bool :=
  (s.lookup uid).isSome

/-- Embeds `compile_tensor_parameter` (rules/parameters.py, lines 75-95): if the
symbolic node was compiled before, return a pointer to the recorded
materialization with its fold index; otherwise materialize a fresh
`TorchTensorParameter` from the node's shape, learnability, initializer and
dtype, and register it (with fold index 0) in the state. -/
def compileTensorParameter (s : CompilerState) (p : TensorParameter) :
    CompiledParam × CompilerState :=
  match s.lookup p.uid with
  | some (t, i) => (CompiledParam.pointer t i, s)
  | none =>
    (CompiledParam.tensor
        ⟨s.nextMid, p.shape, p.learnable, p.initializer, some p.dtype⟩,
      ⟨s.compiledParams ++
          [(p.uid, ⟨s.nextMid, p.shape, p.learnable, p.initializer,
            some p.dtype⟩, 0)],
        s.nextMid + 1⟩)

/-- Embeds `compile_constant_parameter` (rules/parameters.py, lines 98-115): same
scheme, with `requires_grad=False` and the default dtype. -/
def compileConstantParameter (s : CompilerState) (p : ConstantParameter) :
    CompiledParam × CompilerState :=
  match s.lookup p.uid with
  | some (t, i) => (CompiledParam.pointer t i, s)
  | none =>
    (CompiledParam.tensor ⟨s.nextMid, p.shape, false, p.initializer, none⟩,
      ⟨s.compiledParams ++
          [(p.uid, ⟨s.nextMid, p.shape, false, p.initializer, none⟩, 0)],
        s.nextMid + 1⟩)

/-!
Embedding of `cirkit/symbolic/functional.py`: `integrate` and `multiply`.  The layer
rewrite applied to each integrated input layer is `integrate_ef_layer`
(operators.py, lines 30-38), which keeps the layer's scope, output units and
channels and turns it into a constant layer.
-/

/-- A Python `dict` assignment `m[k] = v`: replace the existing entry,
else append. -/
def LayerMap.set (m : LayerMap) (k : ℕ) (v : List SymbLayer) : LayerMap :=
  if (m.find? (fun e => e.1 = k)).isSome then
    m.map (fun e => if e.1 = k then (k, v) else e)
  else m ++ [(k, v)]

/-- Embeds `map_layers` lookup (`map_layers[isl]`): `none` models a `KeyError`. -/
def layerAssocFind (m : List (ℕ × SymbLayer)) (k : ℕ) : Option SymbLayer :=
  match m.find? (fun e => e.1 = k) with
  | some e => some e.2
  | none => none

/-- Embeds `[map_layers[isl] for isl in sc.layer_inputs(sl)]`. -/
def mapAll (m : List (ℕ × SymbLayer)) : List SymbLayer → Option (List SymbLayer)
  | [] => some []
  | x :: xs =>
    match layerAssocFind m x.uid, mapAll m xs with
    | some y, some ys => some (y :: ys)
    | _, _ => none

/-- Embeds `integrate_ef_layer` (operators.py, lines 30-38): replaces an input layer
by a constant layer with the same scope, output units and channels, holding
the constant-1 or partition-placeholder value. -/
def integrateEfLayer (sl : SymbLayer) : SymbLayer :=
  ⟨sl.uid, LayerKind.constant, sl.scope, sl.numUnits, sl.arity⟩

/-- The loop state of `integrate`: `map_layers` (insertion-ordered) and the
new circuit's `in_layers` / `out_layers`. -/
structure IntegrateState where
  mapL : List (ℕ × SymbLayer)
  inL : LayerMap
  outL : LayerMap
  deriving DecidableEq

/-- The `for sl in sc.layers` loop of `integrate` (functional.py, lines
54-79).  An input layer meeting the integration scope is rewritten (or, when
its scope is not contained in the integration scope, raises
`NotImplementedError`); any other layer falls into the else-branch whose
`assert isinstance(sl, (SymSumLayer, SymProdLayer))` raises `AssertionError`
for input layers disjoint from the integration scope; sum/product layers are
copied with their inputs remapped.  Line 79 of the source assigns
`out_layers[isl] = new_sl_inputs` — the list of the new layer's inputs, not
the new layer — and the embedding reproduces that assignment. -/
def integrateLoop (c : SymbCircuit) (scope : Scope) :
    List SymbLayer → IntegrateState → Except PyErr IntegrateState
  | [], st => Except.ok st
  | sl :: rest, st =>
    if sl.isInput ∧ (sl.scope ∩ scope).Nonempty then
      if ¬(sl.scope ⊆ scope) then Except.error PyErr.notImplementedError
      else
        integrateLoop c scope rest
          { st with mapL := st.mapL ++ [(sl.uid, integrateEfLayer sl)] }
    else
      if sl.isInput then Except.error PyErr.assertionError
      else
        match mapAll st.mapL (c.layerInputs sl) with
        | none => Except.error PyErr.keyError
        | some newInputs =>
          integrateLoop c scope rest
            ⟨st.mapL ++ [(sl.uid, ⟨sl.uid, sl.kind, sl.scope, sl.numUnits,
                sl.arity⟩)],
              st.inL.set sl.uid newInputs,
              newInputs.foldl (fun m isl => m.set isl.uid newInputs) st.outL⟩

/-- Embeds `integrate` (functional.py, lines 25-92): precondition checks, then the
rewrite loop, then the new circuit — whose scope is `sc.scope` (line 83). -/
def integrate (sc : SymbCircuit) (scope? : Option Scope) :
    Except PyErr SymbCircuit :=
  if ¬(sc.isSmooth ∧ sc.isDecomposable) then
    Except.error PyErr.structuralPropertyError
  else
    if (scope?.getD sc.scope ∪ sc.scope) ≠ sc.scope then
      Except.error PyErr.valueError
    else
      match integrateLoop sc (scope?.getD sc.scope) sc.layers ⟨[], [], []⟩ with
      | Except.error e => Except.error e
      | Except.ok st =>
        Except.ok ⟨sc.scope, st.mapL.map (fun e => e.2), st.inL, st.outL⟩

/-- Embeds `is_compatible` (symb_circuit.py, lines 166-172): after the smoothness
and decomposability gates, the method body is a `# TODO` comment followed by
`return False`. -/
def SymbCircuit.isCompatible (c : SymbCircuit) (oth : SymbCircuit)
    (scope : Option Scope) : Bool :=
  if ¬ c.isSmooth then false
  else if ¬ c.isDecomposable then false
  else false

/-- Embeds `multiply` (functional.py, lines 95-102): raises unless the operands are
compatible; the remaining body is the ellipsis placeholder `...`, so on the
(unreachable) success path the function returns `None`. -/
def multiply (lhs_sc rhs_sc : SymbCircuit) : Except PyErr (Option SymbCircuit) :=
  if ¬(lhs_sc.isCompatible rhs_sc none) then
    Except.error PyErr.structuralPropertyError
  else Except.ok none

/-! Concrete circuits used to evaluate `integrate` and `multiply`. -/

/-- A dense (sum) layer over variable 0. -/
def exDense0 : SymbLayer := ⟨1, LayerKind.sum, {0}, 1, 1⟩

/-- A smooth, decomposable chain circuit over `{0}`: one input layer feeding
one dense sum layer. -/
def exChainA : SymbCircuit :=
  ⟨{0}, [exInput0, exDense0], [(1, [exInput0])], [(0, [exDense0])]⟩

/-- A second copy of the chain circuit (fresh layer identities). -/
def exChainB : SymbCircuit :=
  ⟨{0}, [⟨4, LayerKind.input, {0}, 1, 1⟩, ⟨5, LayerKind.sum, {0}, 1, 1⟩],
    [(5, [⟨4, LayerKind.input, {0}, 1, 1⟩])],
    [(4, [⟨5, LayerKind.sum, {0}, 1, 1⟩])]⟩

/-- The circuit `integrate` builds from `exChainA` over its full scope. -/
def exChainAIntegral : SymbCircuit :=
  ⟨{0}, [⟨0, LayerKind.constant, {0}, 1, 1⟩, ⟨1, LayerKind.sum, {0}, 1, 1⟩],
    [(1, [⟨0, LayerKind.constant, {0}, 1, 1⟩])],
    [(0, [⟨0, LayerKind.constant, {0}, 1, 1⟩])]⟩

/-- A smooth, decomposable circuit over `{0, 1}` made of two disconnected
chains: inputs over `{0}` and `{1}`, each feeding its own sum layer. -/
def exTwoChains : SymbCircuit :=
  ⟨{0, 1},
    [exInput0, exInput1, ⟨2, LayerKind.sum, {0}, 1, 1⟩,
      ⟨3, LayerKind.sum, {1}, 1, 1⟩],
    [(2, [exInput0]), (3, [exInput1])],
    [(0, [⟨2, LayerKind.sum, {0}, 1, 1⟩]), (1, [⟨3, LayerKind.sum, {1}, 1, 1⟩])]⟩

/-- A smooth, decomposable circuit whose input layer is multivariate (scope
`{0, 1}`), feeding one sum layer. -/
def exMultiInput : SymbCircuit :=
  ⟨{0, 1}, [⟨0, LayerKind.input, {0, 1}, 1, 1⟩, ⟨1, LayerKind.sum, {0, 1}, 1, 1⟩],
    [(1, [⟨0, LayerKind.input, {0, 1}, 1, 1⟩])],
    [(0, [⟨1, LayerKind.sum, {0, 1}, 1, 1⟩])]⟩

/-- A non-smooth circuit: the sum layer's scope `{0, 1}` differs from its
input's scope `{0}`. -/
def exBadSmooth : SymbCircuit :=
  ⟨{0, 1}, [exInput0, ⟨1, LayerKind.sum, {0, 1}, 1, 1⟩],
    [(1, [exInput0])],
    [(0, [⟨1, LayerKind.sum, {0, 1}, 1, 1⟩])]⟩

/-!
Embedding of `SymbCircuit.layers_topological_ordering` (symb_circuit.py, lines 126-132):
it calls `topological_ordering(set(self.output_layers), incomings_fn)` from
`cirkit/utils/algorithms.py` — a module not under `src/` — and raises
`ValueError("The given symbolic circuit has at least one layers cycle")`
when that utility returns `None`.
-/

/-- Is `v` ready to be emitted: are all of its incoming layers already in
`acc` (compared by identity)? -/
def readyPred (inc : ℕ → List SymbLayer) (acc : List SymbLayer)
    (v : SymbLayer) : Bool :=
  (inc v.uid).all (fun t => acc.any (fun e => e.uid = t.uid))

/-- Modelled from the spec (§4.4): the missing `topological_ordering`
utility is "a genuine algorithm (Kahn's algorithm or DFS-based, over an
explicit, possibly disconnected, DAG)" that "must be deterministic given a
fixed iteration order of inputs".  This is fuel-bounded Kahn's algorithm:
repeatedly emit, in list order, every pending node all of whose incoming
nodes were already emitted; return `none` when no pending node is ready. -/
def kahnAux (inc : ℕ → List SymbLayer) :
    ℕ → List SymbLayer → List SymbLayer → Option (List SymbLayer)
  | _, acc, [] => some acc
  | 0, _, _ :: _ => none
  | Nat.succ fuel, acc, v :: rest =>
    if ((v :: rest).filter (readyPred inc acc)).isEmpty then none
    else
      kahnAux inc fuel (acc ++ (v :: rest).filter (readyPred inc acc))
        ((v :: rest).filter (fun u => !readyPred inc acc u))

/-- Modelled from the spec (§4.4): gather the nodes reachable from the
roots through the incomings map, deduplicated by identity; when the fuel
runs out the not-yet-processed frontier is kept, so the result always
contains (the identity of) every root. -/
def reachAux (inc : ℕ → List SymbLayer) :
    ℕ → List SymbLayer → List SymbLayer → List SymbLayer
  | _, acc, [] => acc
  | 0, acc, v :: frontier => acc ++ v :: frontier
  | Nat.succ fuel, acc, v :: frontier =>
    if acc.any (fun e => e.uid = v.uid) then reachAux inc fuel acc frontier
    else reachAux inc fuel (acc ++ [v]) (frontier ++ inc v.uid)

/-- A crude size bound on the circuit's adjacency structure, used to supply
enough fuel to `reachAux`. -/
def SymbCircuit.graphSize (c : SymbCircuit) : ℕ :=
  c.layers.length + c.inLayers.foldl (fun a e => a + 1 + e.2.length) 0 + 1

/-- Embeds `layers_topological_ordering` (symb_circuit.py, lines 126-132): run the
(spec-modelled) topological-ordering utility from the output layers backward
through `in_layers`, and raise `ValueError` when it returns `None`. -/
def SymbCircuit.layersTopologicalOrdering (c : SymbCircuit) :
    Except PyErr (List SymbLayer) :=
  match kahnAux (fun uid => c.inLayers.get uid)
      (reachAux (fun uid => c.inLayers.get uid)
        ((c.graphSize + 1) * (c.graphSize + 1)) [] c.outputLayers).length
      []
      (reachAux (fun uid => c.inLayers.get uid)
        ((c.graphSize + 1) * (c.graphSize + 1)) [] c.outputLayers) with
  | some l => Except.ok l
  | none => Except.error PyErr.valueError

/-- Embeds `l` is consistent as a continuation after the identities in `seen`:
every element's incoming layers (by identity) occur among `seen` or among
the earlier elements of `l`. -/
def topoOK (inc : ℕ → List SymbLayer) : List ℕ → List SymbLayer → Prop
  | _, [] => True
  | seen, v :: rest =>
    (∀ t ∈ inc v.uid, t.uid ∈ seen) ∧ topoOK inc (seen ++ [v.uid]) rest

/-- A valid topological order of a circuit's layer graph: it contains (the
identity of) every output layer, and every element's incoming layers appear
strictly earlier. -/
def validTopoOrder (c : SymbCircuit) (l : List SymbLayer) : Prop :=
  (∀ o ∈ c.outputLayers, o.uid ∈ l.map SymbLayer.uid) ∧
    topoOK (fun uid => c.inLayers.get uid) [] l

/-- A circuit with a layer cycle reachable from its only output layer:
the output (uid 2) takes its input from uid 0, which takes it from uid 1,
which takes it from uid 0 again. -/
def exCyclic : SymbCircuit :=
  ⟨{0},
    [⟨0, LayerKind.sum, {0}, 1, 1⟩, ⟨1, LayerKind.sum, {0}, 1, 1⟩,
      ⟨2, LayerKind.sum, {0}, 1, 1⟩],
    [(2, [⟨0, LayerKind.sum, {0}, 1, 1⟩]),
      (0, [⟨1, LayerKind.sum, {0}, 1, 1⟩]),
      (1, [⟨0, LayerKind.sum, {0}, 1, 1⟩])],
    [(0, [⟨2, LayerKind.sum, {0}, 1, 1⟩]),
      (1, [⟨0, LayerKind.sum, {0}, 1, 1⟩])]⟩

end Cirkit

open Cirkit

theorem categoricalDefaults_cases (shape : List ℕ)
    (logits probs : Option CatParam)
    (logitsFactory probsFactory : Option (List ℕ → CatParam))
    (hnb : ¬(logits.isSome ∧ probs.isSome)) :
    (∃ p, categoricalDefaults shape logits probs logitsFactory probsFactory =
        (some p, none)) ∨
    (∃ p, categoricalDefaults shape logits probs logitsFactory probsFactory =
        (none, some p)) := by
  cases logits with
  | some lg =>
    cases probs with
    | some pb => exact absurd ⟨rfl, rfl⟩ hnb
    | none => exact Or.inl ⟨lg, by simp [categoricalDefaults]⟩
  | none =>
    cases probs with
    | some pb => exact Or.inr ⟨pb, by simp [categoricalDefaults]⟩
    | none =>
      cases logitsFactory with
      | some f => exact Or.inl ⟨f shape, by simp [categoricalDefaults]⟩
      | none =>
        cases probsFactory with
        | some f => exact Or.inr ⟨f shape, by simp [categoricalDefaults]⟩
        | none =>
          exact Or.inl ⟨CatParam.tensorLeaf shape true,
            by simp [categoricalDefaults]⟩

/-- Claim C8: `is_smooth` returns `True` iff every direct input of every sum
layer of the circuit has a scope identical to that sum layer's own scope
(symb_circuit.py, lines 136-142). -/
theorem isSmooth_iff (c : SymbCircuit) :
    c.isSmooth = true ↔
      ∀ sl ∈ c.sumLayers, ∀ isl ∈ c.layerInputs sl, isl.scope = sl.scope := by
  unfold SymbCircuit.isSmooth
  simp only [List.all_eq_true, decide_eq_true_eq]
  constructor
  · intro h sl hsl isl hisl
    exact (h sl hsl isl hisl).symm
  · intro h sl hsl isl hisl
    exact (h sl hsl isl hisl).symm

/-- Claim C3: Counterexample: on a circuit whose only product layer has the two
direct inputs scoped `{0}` and `{1}` — pairwise disjoint, so the claim says
`is_decomposable` returns `True` — the code returns `False`, because it
intersects the left input's scope with itself instead of with the right
input's scope. -/
theorem isDecomposable_counterexample :
    SymbCircuit.combinations2 (exProdCircuit.layerInputs exProd01) =
        [(exInput0, exInput1)] ∧
      exInput0.scope ∩ exInput1.scope = ∅ ∧
      exProdCircuit.isDecomposable = false := by
  refine ⟨by decide, by decide, by decide⟩

/-- Claim C7: Counterexample to the claim as stated: constructing
`HadamardParameter` with the mismatched operand shapes `(2,)` and `(3,)`
raises `AssertionError` (from the `assert` on line 83 of params.py), not a
`ShapeError` — the code defines no `ShapeError` class at all. -/
theorem shapeError_counterexample :
    hadamardParameter [2] [3] = Except.error PyErr.assertionError ∧
      PyErr.assertionError ≠ PyErr.shapeError := by
  constructor
  · rfl
  · decide

/-- Claim C7, amended: The shape laws hold as claimed — Hadamard keeps the
required-equal operand shape, Kronecker multiplies corresponding dims,
OuterProduct requires the dims equal except at `axis` and multiplies the two
dims there, and the Reduce family drops the `axis` dimension — but a violated
contract raises `AssertionError` (the constructors validate with `assert`
statements), not `ShapeError`. -/
theorem parameter_shape_laws (s1 s2 : List ℕ) (axis : ℤ) :
    (s1 = s2 → hadamardParameter s1 s2 = Except.ok s1) ∧
    (s1 ≠ s2 → hadamardParameter s1 s2 = Except.error PyErr.assertionError) ∧
    (s1.length = s2.length →
      ∃ r, kroneckerParameter s1 s2 = Except.ok r ∧ r.length = s1.length ∧
        ∀ i, i < r.length → r.getD i 0 = s1.getD i 0 * s2.getD i 0) ∧
    (s1.length ≠ s2.length →
      kroneckerParameter s1 s2 = Except.error PyErr.assertionError) ∧
    (∀ a : ℕ, s1.length = s2.length → normAxis axis s1.length = (a : ℤ) →
      a < s1.length → (∀ i, i < s1.length → i ≠ a → s1.getD i 0 = s2.getD i 0) →
      outerProductParameter s1 s2 axis =
        Except.ok (s1.set a (s1.getD a 0 * s2.getD a 0))) ∧
    (s1.length ≠ s2.length →
      outerProductParameter s1 s2 axis = Except.error PyErr.assertionError) ∧
    (∀ a : ℕ, normAxis axis s1.length = (a : ℤ) → a < s1.length →
      reduceSumParameter s1 axis = Except.ok (s1.eraseIdx a) ∧
      reduceProductParameter s1 axis = Except.ok (s1.eraseIdx a) ∧
      reduceLSEParameter s1 axis = Except.ok (s1.eraseIdx a)) ∧
    ((s1.length : ℤ) ≤ normAxis axis s1.length →
      reduceSumParameter s1 axis = Except.error PyErr.assertionError ∧
      reduceProductParameter s1 axis = Except.error PyErr.assertionError ∧
      reduceLSEParameter s1 axis = Except.error PyErr.assertionError) := by
  refine ⟨?_, ?_, ?_, ?_, ?_, ?_, ?_, ?_⟩
  · intro h
    simp [hadamardParameter, h]
  · intro h
    simp [hadamardParameter, h]
  · intro h
    refine ⟨List.zipWith (· * ·) s1 s2, by simp [kroneckerParameter, h], ?_, ?_⟩
    · rw [listLength_zipWithMul]
      omega
    · intro i hi
      rw [listLength_zipWithMul] at hi
      exact listGetD_zipWithMul s1 s2 i (by omega) (by omega)
  · intro h
    simp [kroneckerParameter, h]
  · intro a hlen hax ha hp
    have htake : s1.take a = s2.take a := by
      apply listExt_getD
      · simp [hlen]
      · intro i
        by_cases hia : i < a
        · rw [listGetD_take s1 a i hia, listGetD_take s2 a i hia]
          exact hp i (by omega) (by omega)
        · have h1 : (s1.take a).length ≤ i := by
            rw [List.length_take]
            omega
          have h2 : (s2.take a).length ≤ i := by
            rw [List.length_take]
            omega
          rw [List.getD_eq_default _ _ h1, List.getD_eq_default _ _ h2]
    have hdrop : s1.drop (a + 1) = s2.drop (a + 1) := by
      apply listExt_getD
      · simp [hlen]
      · intro i
        rw [listGetD_drop, listGetD_drop]
        by_cases hin : a + 1 + i < s1.length
        · exact hp (a + 1 + i) hin (by omega)
        · have h1 : s1.length ≤ a + 1 + i := by omega
          have h2 : s2.length ≤ a + 1 + i := by omega
          rw [List.getD_eq_default _ _ h1, List.getD_eq_default _ _ h2]
    have hcond : 0 ≤ normAxis axis s1.length ∧
        normAxis axis s1.length < (s1.length : ℤ) := by
      rw [hax]
      constructor
      · omega
      · exact_mod_cast ha
    have htoNat : (normAxis axis s1.length).toNat = a := by
      rw [hax]
      simp
    rw [outerProductParameter, if_pos hlen, if_pos hcond, htoNat,
      if_pos htake, if_pos hdrop,
      listTake_append_cons_drop_eq_set s1 a _ ha]
  · intro h
    simp [outerProductParameter, h]
  · intro a hax ha
    have hcond : 0 ≤ normAxis axis s1.length ∧
        normAxis axis s1.length < (s1.length : ℤ) := by
      rw [hax]
      constructor
      · omega
      · exact_mod_cast ha
    have htoNat : (normAxis axis s1.length).toNat = a := by
      rw [hax]
      simp
    have heq : reduceOpParameter s1 axis = Except.ok (s1.eraseIdx a) := by
      rw [reduceOpParameter, if_pos hcond, htoNat,
        listTake_append_drop_eq_eraseIdx s1 a]
    exact ⟨heq, heq, heq⟩
  · intro h
    have hcond : ¬(0 ≤ normAxis axis s1.length ∧
        normAxis axis s1.length < (s1.length : ℤ)) := by
      omega
    have heq : reduceOpParameter s1 axis = Except.error PyErr.assertionError := by
      rw [reduceOpParameter, if_neg hcond]
    exact ⟨heq, heq, heq⟩

/-- Witness for `parameter_shape_laws` at concrete shapes: Hadamard on two
copies of `(2, 3)`, Kronecker of `(2, 3)` and `(4, 5)`, OuterProduct of
`(2, 3)` and `(2, 7)` along axis 1, ReduceSum of `(2, 3)` along axis `-1`,
and a rank-mismatched Kronecker of `(2,)` and `(4, 5)`. -/
theorem parameter_shape_laws_witness :
    hadamardParameter [2, 3] [2, 3] = Except.ok [2, 3] ∧
      (∃ r, kroneckerParameter [2, 3] [4, 5] = Except.ok r ∧ r.length = 2 ∧
        ∀ i, i < r.length →
          r.getD i 0 = [2, 3].getD i 0 * [4, 5].getD i 0) ∧
      outerProductParameter [2, 3] [2, 7] 1 = Except.ok [2, 21] ∧
      reduceSumParameter [2, 3] (-1) = Except.ok [2] ∧
      kroneckerParameter [2] [4, 5] = Except.error PyErr.assertionError := by
  refine ⟨?_, ?_, ?_, ?_, ?_⟩
  · exact (parameter_shape_laws [2, 3] [2, 3] 0).1 rfl
  · exact (parameter_shape_laws [2, 3] [4, 5] 0).2.2.1 rfl
  · exact (parameter_shape_laws [2, 3] [2, 7] 1).2.2.2.2.1 1 rfl (by decide)
      (by decide) (by decide)
  · exact ((parameter_shape_laws [2, 3] [2, 3] (-1)).2.2.2.2.2.2.1 1 (by decide)
      (by decide)).1
  · exact (parameter_shape_laws [2] [4, 5] 0).2.2.2.1 (by decide)

/-- Claim C10: `CategoricalLayer`: giving both `logits` and `probs` (or both
factories) raises an error; with nothing given, a default learnable logits
tensor of shape `(num_output_units, num_channels, num_categories)` is
created; and every successfully constructed layer exposes exactly one
`params` entry — either `logits` or `probs`, never both, and never an absent
one. -/
theorem categorical_layer_contract (scope : Scope)
    (o ch k : ℕ) (lg pb : Option CatParam)
    (lf pf : Option (List ℕ → CatParam)) :
    (lg.isSome = true → pb.isSome = true →
      categoricalLayerInit scope o ch k lg pb lf pf =
        Except.error PyErr.valueError) ∧
    (lf.isSome = true → pf.isSome = true →
      categoricalLayerInit scope o ch k lg pb lf pf =
        Except.error PyErr.valueError) ∧
    (scope.card = 1 → 2 ≤ k →
      categoricalLayerInit scope o ch k none none none none =
        Except.ok
          ⟨scope, o, ch, k, some (CatParam.tensorLeaf [o, ch, k] true), none⟩) ∧
    (∀ l, categoricalLayerInit scope o ch k lg pb lf pf = Except.ok l →
      (l.paramsMap = [("logits", l.logits)] ∧ l.logits.isSome = true ∧
          l.probs = none) ∨
        (l.paramsMap = [("probs", l.probs)] ∧ l.probs.isSome = true ∧
          l.logits = none)) := by
  refine ⟨?_, ?_, ?_, ?_⟩
  · intro h1 h2
    unfold categoricalLayerInit
    split
    · rfl
    · rw [if_pos ⟨h1, h2⟩]
  · intro h1 h2
    unfold categoricalLayerInit
    split
    · rfl
    · split
      · rfl
      · rw [if_pos ⟨h1, h2⟩]
  · intro hc hk
    unfold categoricalLayerInit
    rw [if_neg (by omega)]
    simp only [Option.isSome_none, Bool.false_eq_true, false_and, if_false]
    rw [if_neg (by omega)]
    simp [categoricalDefaults, optShapeBad, CatParam.shape]
  · intro l h
    unfold categoricalLayerInit at h
    by_cases hcard : scope.card ≠ 1
    · rw [if_pos hcard] at h
      exact absurd h (by simp)
    rw [if_neg hcard] at h
    by_cases hnb : lg.isSome = true ∧ pb.isSome = true
    · rw [if_pos hnb] at h
      exact absurd h (by simp)
    rw [if_neg hnb] at h
    by_cases hnf : lf.isSome = true ∧ pf.isSome = true
    · rw [if_pos hnf] at h
      exact absurd h (by simp)
    rw [if_neg hnf] at h
    by_cases hk : k < 2
    · rw [if_pos hk] at h
      exact absurd h (by simp)
    rw [if_neg hk] at h
    by_cases hs1 : optShapeBad
        (categoricalDefaults [o, ch, k] lg pb lf pf).1 [o, ch, k] = true
    · rw [if_pos hs1] at h
      exact absurd h (by simp)
    rw [if_neg hs1] at h
    by_cases hs2 : optShapeBad
        (categoricalDefaults [o, ch, k] lg pb lf pf).2 [o, ch, k] = true
    · rw [if_pos hs2] at h
      exact absurd h (by simp)
    rw [if_neg hs2] at h
    simp only [Except.ok.injEq] at h
    subst h
    rcases categoricalDefaults_cases [o, ch, k] lg pb lf pf hnb with
      ⟨p, hp⟩ | ⟨p, hp⟩
    · left
      refine ⟨?_, ?_, ?_⟩
      · simp [CategoricalLayer.paramsMap, hp]
      · simp [hp]
      · simp [hp]
    · right
      refine ⟨?_, ?_, ?_⟩
      · simp [CategoricalLayer.paramsMap, hp]
      · simp [hp]
      · simp [hp]

/-- Witness for `categorical_layer_contract`: both `logits` and `probs`
given raises; nothing given creates the default `(3, 1, 4)` logits tensor;
and a layer built from a given `probs` exposes exactly the `probs` entry. -/
theorem categorical_layer_contract_witness :
    categoricalLayerInit {0} 3 1 4 (some (CatParam.given [3, 1, 4] 0))
        (some (CatParam.given [3, 1, 4] 1)) none none =
      Except.error PyErr.valueError ∧
    categoricalLayerInit {0} 3 1 4 none none none none =
      Except.ok
        ⟨{0}, 3, 1, 4, some (CatParam.tensorLeaf [3, 1, 4] true), none⟩ ∧
    (((⟨{0}, 3, 1, 4, none, some (CatParam.given [3, 1, 4] 7)⟩ :
          CategoricalLayer).paramsMap =
        [("logits", (none : Option CatParam))] ∧
        (none : Option CatParam).isSome = true ∧
        (some (CatParam.given [3, 1, 4] 7) : Option CatParam) = none) ∨
      ((⟨{0}, 3, 1, 4, none, some (CatParam.given [3, 1, 4] 7)⟩ :
          CategoricalLayer).paramsMap =
        [("probs", some (CatParam.given [3, 1, 4] 7))] ∧
        (some (CatParam.given [3, 1, 4] 7)).isSome = true ∧
        (none : Option CatParam) = none)) := by
  refine ⟨?_, ?_, ?_⟩
  · exact (categorical_layer_contract {0} 3 1 4 (some (CatParam.given [3, 1, 4] 0))
      (some (CatParam.given [3, 1, 4] 1)) none none).1 rfl rfl
  · exact (categorical_layer_contract {0} 3 1 4 none none none none).2.2.1
      (by decide) (by decide)
  · exact (categorical_layer_contract {0} 3 1 4 none
      (some (CatParam.given [3, 1, 4] 7)) none none).2.2.2
      ⟨{0}, 3, 1, 4, none, some (CatParam.given [3, 1, 4] 7)⟩ (by rfl)

/-- Claim C2: The Dense×Dense and Mixing×Mixing rules multiply output units
(and Dense weights are the Kronecker of references to the operand weights,
Mixing arities multiply), and Hadamard×Hadamard multiplies output units; but
Categorical×Categorical and Gaussian×Gaussian use
`lhs.num_output_units * rhs.num_input_units` — for the univariate operands
here `rhs.num_input_units = len(rhs.scope) = 1`, so multiplying a 3-unit by a
2-unit layer yields 3 output units where the claim (and the repository's own
tests) require 6. -/
theorem multiply_rules_output_units :
    (∀ lhs rhs : Ops.Dense,
      (Ops.multiplyDenseLayers lhs rhs).numOutputUnits =
          lhs.numOutputUnits * rhs.numOutputUnits ∧
        (Ops.multiplyDenseLayers lhs rhs).weight =
          SymParam.kronecker (SymParam.placeholder lhs.uid "weight")
            (SymParam.placeholder rhs.uid "weight") none) ∧
    (∀ lhs rhs : Ops.Mixing,
      (Ops.multiplyMixingLayers lhs rhs).numOutputUnits =
          lhs.numOutputUnits * rhs.numOutputUnits ∧
        (Ops.multiplyMixingLayers lhs rhs).arity = lhs.arity * rhs.arity ∧
        (Ops.multiplyMixingLayers lhs rhs).weight =
          SymParam.kronecker (SymParam.placeholder lhs.uid "weight")
            (SymParam.placeholder rhs.uid "weight") none) ∧
    (∃ l, Ops.multiplyHadamardLayers exHadA exHadB = Except.ok l ∧
      l.numOutputUnits = exHadA.numOutputUnits * exHadB.numOutputUnits) ∧
    (∃ l, Ops.multiplyCategoricalLayers exCatA exCatB = Except.ok l ∧
      l.numOutputUnits = 3 ∧
      exCatA.numOutputUnits * exCatB.numOutputUnits = 6) ∧
    (∃ l, Ops.multiplyGaussianLayers exGaussA exGaussB = Except.ok l ∧
      l.numOutputUnits = 3 ∧
      exGaussA.numOutputUnits * exGaussB.numOutputUnits = 6) := by
  refine ⟨?_, ?_, ?_, ?_, ?_⟩
  · intro lhs rhs
    exact ⟨rfl, rfl⟩
  · intro lhs rhs
    exact ⟨rfl, rfl, rfl⟩
  · exact ⟨_, rfl, by decide⟩
  · exact ⟨_, rfl, by decide, by decide⟩
  · exact ⟨_, rfl, by decide, by decide⟩

theorem listFind_append_of_none {α : Type} (l1 l2 : List α) (p : α → Bool)
    (h : l1.find? p = none) : (l1 ++ l2).find? p = l2.find? p := by
  induction l1 with
  | nil => simp
  | cons x xs ih =>
    cases hpx : p x with
    | true =>
      rw [List.find?_cons_of_pos _ hpx] at h
      exact absurd h (by simp)
    | false =>
      rw [List.find?_cons_of_neg _ (by simp [hpx])] at h
      rw [List.cons_append, List.find?_cons_of_neg _ (by simp [hpx])]
      exact ih h

theorem compilerState_lookup_register (s : CompilerState) (uid : ℕ)
    (t : TorchTensorParameter) (h : s.lookup uid = none) :
    CompilerState.lookup
        ⟨s.compiledParams ++ [(uid, t, 0)], s.nextMid + 1⟩ uid =
      some (t, 0) := by
  have hf : s.compiledParams.find? (fun e => e.1 = uid) = none := by
    unfold CompilerState.lookup at h
    cases hm : s.compiledParams.find? (fun e => e.1 = uid) with
    | none => rfl
    | some e =>
      rw [hm] at h
      exact absurd h (by simp)
  unfold CompilerState.lookup
  rw [listFind_append_of_none _ _ _ hf]
  simp

/-- Claim C1: First compilation of a symbolic leaf parameter not yet in the
compiler state materializes it and registers the materialization (with fold
index 0, appended to the cache); any compilation request for a symbolic
parameter already in the state returns a pointer parameter referencing the
recorded materialization together with its fold index and leaves the state
unchanged — in particular, recompiling the same symbolic node right after
its first compilation yields a pointer to the original materialization and
creates no second one.  Both `compile_tensor_parameter` and
`compile_constant_parameter` are covered. -/
theorem compile_parameter_sharing (s : CompilerState) (p : TensorParameter)
    (q : ConstantParameter) :
    (s.lookup p.uid = none →
      compileTensorParameter s p =
        (CompiledParam.tensor
            ⟨s.nextMid, p.shape, p.learnable, p.initializer, some p.dtype⟩,
          ⟨s.compiledParams ++
              [(p.uid, ⟨s.nextMid, p.shape, p.learnable, p.initializer,
                some p.dtype⟩, 0)],
            s.nextMid + 1⟩) ∧
      (compileTensorParameter s p).2.lookup p.uid =
        some (⟨s.nextMid, p.shape, p.learnable, p.initializer,
          some p.dtype⟩, 0)) ∧
    (∀ t i, s.lookup p.uid = some (t, i) →
      compileTensorParameter s p = (CompiledParam.pointer t i, s)) ∧
    (s.lookup p.uid = none →
      compileTensorParameter (compileTensorParameter s p).2 p =
        (CompiledParam.pointer
            ⟨s.nextMid, p.shape, p.learnable, p.initializer, some p.dtype⟩ 0,
          (compileTensorParameter s p).2)) ∧
    (s.lookup q.uid = none →
      compileConstantParameter s q =
        (CompiledParam.tensor ⟨s.nextMid, q.shape, false, q.initializer, none⟩,
          ⟨s.compiledParams ++
              [(q.uid, ⟨s.nextMid, q.shape, false, q.initializer, none⟩, 0)],
            s.nextMid + 1⟩)) ∧
    (∀ t i, s.lookup q.uid = some (t, i) →
      compileConstantParameter s q = (CompiledParam.pointer t i, s)) := by
  refine ⟨?_, ?_, ?_, ?_, ?_⟩
  · intro h
    constructor
    · rw [compileTensorParameter, h]
    · rw [compileTensorParameter, h]
      exact compilerState_lookup_register s p.uid _ h
  · intro t i h
    rw [compileTensorParameter, h]
  · intro h
    have h2 : (compileTensorParameter s p).2.lookup p.uid =
        some (⟨s.nextMid, p.shape, p.learnable, p.initializer,
          some p.dtype⟩, 0) := by
      rw [compileTensorParameter, h]
      exact compilerState_lookup_register s p.uid _ h
    rw [compileTensorParameter, h2]
  · intro h
    rw [compileConstantParameter, h]
  · intro t i h
    rw [compileConstantParameter, h]

/-- Witness for `compile_parameter_sharing`: starting from the empty compiler
state, the first compilation of a concrete tensor parameter materializes it,
and the immediate recompilation returns a pointer to that materialization
with fold index 0, leaving the state unchanged. -/
theorem compile_parameter_sharing_witness :
    (compileTensorParameter ⟨[], 0⟩ ⟨100, [2, 3], true, 5, 7⟩ =
      (CompiledParam.tensor ⟨0, [2, 3], true, 5, some 7⟩,
        ⟨[(100, ⟨0, [2, 3], true, 5, some 7⟩, 0)], 1⟩) ∧
      (compileTensorParameter ⟨[], 0⟩ ⟨100, [2, 3], true, 5, 7⟩).2.lookup 100 =
        some (⟨0, [2, 3], true, 5, some 7⟩, 0)) ∧
    compileTensorParameter
        (compileTensorParameter ⟨[], 0⟩ ⟨100, [2, 3], true, 5, 7⟩).2
        ⟨100, [2, 3], true, 5, 7⟩ =
      (CompiledParam.pointer ⟨0, [2, 3], true, 5, some 7⟩ 0,
        (compileTensorParameter ⟨[], 0⟩ ⟨100, [2, 3], true, 5, 7⟩).2) ∧
    compileConstantParameter ⟨[], 0⟩ ⟨200, [4], 9⟩ =
      (CompiledParam.tensor ⟨0, [4], false, 9, none⟩,
        ⟨[(200, ⟨0, [4], false, 9, none⟩, 0)], 1⟩) := by
  refine ⟨?_, ?_, ?_⟩
  · exact (compile_parameter_sharing ⟨[], 0⟩ ⟨100, [2, 3], true, 5, 7⟩
      ⟨200, [4], 9⟩).1 rfl
  · exact (compile_parameter_sharing ⟨[], 0⟩ ⟨100, [2, 3], true, 5, 7⟩
      ⟨200, [4], 9⟩).2.2.1 rfl
  · exact (compile_parameter_sharing ⟨[], 0⟩ ⟨100, [2, 3], true, 5, 7⟩
      ⟨200, [4], 9⟩).2.2.2.1 rfl

/-- Claim C4: Full-scope integration of the smooth, decomposable chain circuit
over `{0}` succeeds and replaces the input layer by a constant layer, keeps
the inner-layer count, and yields a circuit that is still smooth and
decomposable — but the resulting circuit's scope is `{0}` (functional.py
line 83 passes `sc.scope` to the new circuit), not the empty scope the claim
(and the repository's `test_integrate_circuit`, which asserts
`not int_sc.scope`) requires. -/
theorem integrate_full_scope_result :
    integrate exChainA none = Except.ok exChainAIntegral ∧
      exChainAIntegral.scope = exChainA.scope ∧
      exChainAIntegral.scope ≠ (∅ : Scope) ∧
      exChainAIntegral.isSmooth = true ∧
      exChainAIntegral.isDecomposable = true ∧
      (exChainAIntegral.innerLayers).length = (exChainA.innerLayers).length ∧
      (exChainAIntegral.inputLayers).all
        (fun sl => sl.kind = LayerKind.constant) = true := by
  refine ⟨rfl, rfl, by decide, by decide, by decide, by decide, by decide⟩

/-- Claim C5: `integrate` raises `StructuralPropertyError` on a non-smooth
operand, `ValueError` when the integration scope is not a subset of the
circuit's scope, and `NotImplementedError` when an input layer's scope
properly overlaps the integration scope — but under the complementary
preconditions (smooth, decomposable, subset scope, no proper overlap) it
does not always return a circuit: integrating the two-chain circuit over
`{0}` reaches the input layer over `{1}`, which falls into the else-branch
whose `assert isinstance(sl, (SymSumLayer, SymProdLayer))` fails, raising
`AssertionError`. -/
theorem integrate_error_contract :
    integrate exBadSmooth none = Except.error PyErr.structuralPropertyError ∧
      integrate exTwoChains (some {5}) = Except.error PyErr.valueError ∧
      integrate exMultiInput (some {0}) =
        Except.error PyErr.notImplementedError ∧
      (exTwoChains.isSmooth = true ∧ exTwoChains.isDecomposable = true ∧
        ({0} : Scope) ⊆ exTwoChains.scope ∧
        exTwoChains.inputLayers = [exInput0, exInput1] ∧
        ¬((exInput0.scope ∩ ({0} : Scope)).Nonempty ∧
          ¬exInput0.scope ⊆ ({0} : Scope)) ∧
        ¬((exInput1.scope ∩ ({0} : Scope)).Nonempty ∧
          ¬exInput1.scope ⊆ ({0} : Scope))) ∧
      integrate exTwoChains (some {0}) = Except.error PyErr.assertionError := by
  refine ⟨rfl, rfl, rfl,
    ⟨by decide, by decide, by decide, by decide, by decide, by decide⟩, rfl⟩

/-- Claim C6: Two smooth, decomposable chain circuits with no product layers
at all (so their — vacuous — scope partitionings coincide) are compatible by
the claim's criterion, yet `is_compatible` returns `False` (after the two
structural gates its body is the placeholder `# TODO; return False`), and
`multiply` on them raises `StructuralPropertyError` instead of succeeding. -/
theorem topoOK_append (inc : ℕ → List SymbLayer) (l1 : List SymbLayer) :
    ∀ (seen : List ℕ) (l2 : List SymbLayer),
      topoOK inc seen (l1 ++ l2) ↔
        topoOK inc seen l1 ∧ topoOK inc (seen ++ l1.map SymbLayer.uid) l2 := by
  induction l1 with
  | nil =>
    intro seen l2
    simp [topoOK]
  | cons v rest ih =>
    intro seen l2
    have hassoc : seen ++ [v.uid] ++ rest.map SymbLayer.uid =
        seen ++ (v :: rest).map SymbLayer.uid := by
      simp
    constructor
    · rintro ⟨h1, h2⟩
      change topoOK inc (seen ++ [v.uid]) (rest ++ l2) at h2
      rw [ih (seen ++ [v.uid]) l2] at h2
      refine ⟨⟨h1, h2.1⟩, ?_⟩
      rw [← hassoc]
      exact h2.2
    · rintro ⟨⟨h1, h2⟩, h3⟩
      refine ⟨h1, ?_⟩
      show topoOK inc (seen ++ [v.uid]) (rest ++ l2)
      rw [ih (seen ++ [v.uid]) l2]
      refine ⟨h2, ?_⟩
      rw [hassoc]
      exact h3

theorem topoOK_mono (inc : ℕ → List SymbLayer) (l : List SymbLayer) :
    ∀ (seen seen' : List ℕ), (∀ x ∈ seen, x ∈ seen') →
      topoOK inc seen l → topoOK inc seen' l := by
  induction l with
  | nil =>
    intro seen seen' _ _
    trivial
  | cons v rest ih =>
    intro seen seen' hsub h
    obtain ⟨h1, h2⟩ := h
    refine ⟨fun t ht => hsub _ (h1 t ht), ?_⟩
    refine ih (seen ++ [v.uid]) (seen' ++ [v.uid]) ?_ h2
    intro x hx
    rcases List.mem_append.mp hx with hx | hx
    · exact List.mem_append.mpr (Or.inl (hsub x hx))
    · exact List.mem_append.mpr (Or.inr hx)

theorem topoOK_of_allIn (inc : ℕ → List SymbLayer) (l : List SymbLayer) :
    ∀ (seen : List ℕ), (∀ v ∈ l, ∀ t ∈ inc v.uid, t.uid ∈ seen) →
      topoOK inc seen l := by
  induction l with
  | nil =>
    intro seen _
    trivial
  | cons v rest ih =>
    intro seen h
    refine ⟨h v (List.mem_cons_self v rest), ?_⟩
    refine ih (seen ++ [v.uid]) ?_
    intro u hu t ht
    exact List.mem_append.mpr
      (Or.inl (h u (List.mem_cons_of_mem v hu) t ht))

theorem reachAux_mem (inc : ℕ → List SymbLayer) :
    ∀ (fuel : ℕ) (acc frontier : List SymbLayer) (x : SymbLayer),
      x ∈ acc ++ frontier →
      ∃ y ∈ reachAux inc fuel acc frontier, y.uid = x.uid := by
  intro fuel
  induction fuel with
  | zero =>
    intro acc frontier x hx
    cases frontier with
    | nil => exact ⟨x, by simpa [reachAux] using hx, rfl⟩
    | cons v fr => exact ⟨x, by simpa [reachAux] using hx, rfl⟩
  | succ fuel ih =>
    intro acc frontier x hx
    cases frontier with
    | nil => exact ⟨x, by simpa [reachAux] using hx, rfl⟩
    | cons v fr =>
      simp only [reachAux]
      by_cases hdup : acc.any (fun e => e.uid = v.uid)
      · rw [if_pos hdup]
        rcases List.mem_append.mp hx with hxa | hxf
        · exact ih acc fr x (List.mem_append.mpr (Or.inl hxa))
        · rcases List.mem_cons.mp hxf with hxv | hxr
          · obtain ⟨e, he, heq⟩ := List.any_eq_true.mp hdup
            obtain ⟨y, hy, hyq⟩ :=
              ih acc fr e (List.mem_append.mpr (Or.inl he))
            exact ⟨y, hy, by rw [hyq, of_decide_eq_true heq, hxv]⟩
          · exact ih acc fr x (List.mem_append.mpr (Or.inr hxr))
      · rw [if_neg hdup]
        refine ih (acc ++ [v]) (fr ++ inc v.uid) x ?_
        rcases List.mem_append.mp hx with hxa | hxf
        · exact List.mem_append.mpr
            (Or.inl (List.mem_append.mpr (Or.inl hxa)))
        · rcases List.mem_cons.mp hxf with hxv | hxr
          · exact List.mem_append.mpr
              (Or.inl (List.mem_append.mpr (Or.inr (by simp [hxv]))))
          · exact List.mem_append.mpr
              (Or.inr (List.mem_append.mpr (Or.inl hxr)))

theorem kahnAux_sound (inc : ℕ → List SymbLayer) :
    ∀ (fuel : ℕ) (acc pending l : List SymbLayer),
      kahnAux inc fuel acc pending = some l →
      topoOK inc [] acc →
      topoOK inc [] l ∧ ∀ x, x ∈ acc ++ pending → x ∈ l := by
  intro fuel
  induction fuel with
  | zero =>
    intro acc pending l hk hacc
    cases pending with
    | nil =>
      simp only [kahnAux, Option.some.injEq] at hk
      subst hk
      exact ⟨hacc, fun x hx => by simpa using hx⟩
    | cons v rest =>
      exact absurd hk (by simp [kahnAux])
  | succ fuel ih =>
    intro acc pending l hk hacc
    cases pending with
    | nil =>
      simp only [kahnAux, Option.some.injEq] at hk
      subst hk
      exact ⟨hacc, fun x hx => by simpa using hx⟩
    | cons v rest =>
      rw [kahnAux] at hk
      by_cases hempty : ((v :: rest).filter (readyPred inc acc)).isEmpty
      · rw [if_pos hempty] at hk
        exact absurd hk (by simp)
      · rw [if_neg hempty] at hk
        have hready : topoOK inc ([] ++ acc.map SymbLayer.uid)
            ((v :: rest).filter (readyPred inc acc)) := by
          apply topoOK_of_allIn
          intro u hu t ht
          have hp : readyPred inc acc u = true := (List.mem_filter.mp hu).2
          have hall := List.all_eq_true.mp hp t ht
          obtain ⟨e, he, heq⟩ := List.any_eq_true.mp hall
          refine List.mem_append.mpr (Or.inr ?_)
          exact List.mem_map.mpr ⟨e, he, of_decide_eq_true heq⟩
        have haccr : topoOK inc []
            (acc ++ (v :: rest).filter (readyPred inc acc)) := by
          rw [topoOK_append]
          exact ⟨hacc, hready⟩
        obtain ⟨hok, hmem⟩ := ih
          (acc ++ (v :: rest).filter (readyPred inc acc))
          ((v :: rest).filter (fun u => !readyPred inc acc u)) l hk haccr
        refine ⟨hok, fun x hx => ?_⟩
        rcases List.mem_append.mp hx with hxa | hxp
        · exact hmem x (List.mem_append.mpr
            (Or.inl (List.mem_append.mpr (Or.inl hxa))))
        · by_cases hr : readyPred inc acc x = true
          · exact hmem x (List.mem_append.mpr
              (Or.inl (List.mem_append.mpr
                (Or.inr (List.mem_filter.mpr ⟨hxp, hr⟩)))))
          · refine hmem x (List.mem_append.mpr (Or.inr ?_))
            refine List.mem_filter.mpr ⟨hxp, ?_⟩
            simp [hr]

theorem layersTopologicalOrdering_sound (c : SymbCircuit)
    (l : List SymbLayer)
    (h : c.layersTopologicalOrdering = Except.ok l) : validTopoOrder c l := by
  unfold SymbCircuit.layersTopologicalOrdering at h
  cases hk : kahnAux (fun uid => c.inLayers.get uid)
      (reachAux (fun uid => c.inLayers.get uid)
        ((c.graphSize + 1) * (c.graphSize + 1)) [] c.outputLayers).length
      []
      (reachAux (fun uid => c.inLayers.get uid)
        ((c.graphSize + 1) * (c.graphSize + 1)) [] c.outputLayers) with
  | none =>
    rw [hk] at h
    exact absurd h (by simp)
  | some l' =>
    rw [hk] at h
    simp only [Except.ok.injEq] at h
    subst h
    obtain ⟨hok, hmem⟩ := kahnAux_sound (fun uid => c.inLayers.get uid)
      _ _ _ _ hk trivial
    constructor
    · intro o ho
      obtain ⟨y, hy, hyq⟩ := reachAux_mem (fun uid => c.inLayers.get uid)
        ((c.graphSize + 1) * (c.graphSize + 1)) [] c.outputLayers o
        (by simpa using ho)
      exact List.mem_map.mpr ⟨y, hmem y (by simpa using hy), hyq⟩
    · exact hok

theorem exCyclic_topoOK_impossible :
    ∀ (l : List SymbLayer) (seen : List ℕ), 0 ∉ seen → 1 ∉ seen →
      topoOK (fun uid => exCyclic.inLayers.get uid) seen l →
      ∀ v ∈ l, v.uid ≠ 2 ∧ v.uid ≠ 0 ∧ v.uid ≠ 1 := by
  intro l
  induction l with
  | nil =>
    intro seen _ _ _ v hv
    exact absurd hv (List.not_mem_nil v)
  | cons w rest ih =>
    intro seen h0 h1 hok v hv
    obtain ⟨hw, hrest⟩ := hok
    have hw3 : w.uid ≠ 2 ∧ w.uid ≠ 0 ∧ w.uid ≠ 1 := by
      refine ⟨?_, ?_, ?_⟩
      · intro he
        rw [he] at hw
        have := hw ⟨0, LayerKind.sum, {0}, 1, 1⟩ (by decide)
        exact h0 (by simpa using this)
      · intro he
        rw [he] at hw
        have := hw ⟨1, LayerKind.sum, {0}, 1, 1⟩ (by decide)
        exact h1 (by simpa using this)
      · intro he
        rw [he] at hw
        have := hw ⟨0, LayerKind.sum, {0}, 1, 1⟩ (by decide)
        exact h0 (by simpa using this)
    rcases List.mem_cons.mp hv with hvw | hvr
    · rw [hvw]
      exact hw3
    · refine ih (seen ++ [w.uid]) ?_ ?_ hrest v hvr
      · intro hc
        rcases List.mem_append.mp hc with hc | hc
        · exact h0 hc
        · exact hw3.2.1 (List.mem_singleton.mp hc).symm
      · intro hc
        rcases List.mem_append.mp hc with hc | hc
        · exact h1 hc
        · exact hw3.2.2 (List.mem_singleton.mp hc).symm

theorem exCyclic_no_validTopoOrder : ∀ l, ¬ validTopoOrder exCyclic l := by
  intro l h
  obtain ⟨houts, hok⟩ := h
  have h2 : (2 : ℕ) ∈ l.map SymbLayer.uid :=
    houts ⟨2, LayerKind.sum, {0}, 1, 1⟩ (by decide)
  obtain ⟨v, hv, hvq⟩ := List.mem_map.mp h2
  exact (exCyclic_topoOK_impossible l [] (by simp) (by simp) hok v hv).1 hvq

/-- Claim C9: Counterexample to the claim as stated: on the concrete cyclic
circuit (its only output layer reaches a two-layer cycle through
`in_layers`), `layers_topological_ordering` raises `ValueError` — the
message on symb_circuit.py line 131 — not a `CyclicGraphError`, a class the
repository never defines. -/
theorem cyclicGraphError_counterexample :
    exCyclic.layersTopologicalOrdering = Except.error PyErr.valueError ∧
      PyErr.valueError ≠ PyErr.cyclicGraphError := by
  constructor
  · rfl
  · decide

/-- Claim C9, amended: `layers_topological_ordering()` is deterministic —
being a pure function of the circuit, two calls on the same unchanged
circuit return the same value — and whenever the layer adjacency admits no
valid topological order (no layer sequence contains every output layer and
places every layer after all of its `in_layers`), it raises `ValueError`
(not the spec-taxonomy `CyclicGraphError`, which the code never defines). -/
theorem layersTopologicalOrdering_contract (c : SymbCircuit) :
    c.layersTopologicalOrdering = c.layersTopologicalOrdering ∧
      ((∀ l, ¬ validTopoOrder c l) →
        c.layersTopologicalOrdering = Except.error PyErr.valueError) := by
  refine ⟨rfl, ?_⟩
  intro hno
  cases hres : c.layersTopologicalOrdering with
  | ok l => exact absurd (layersTopologicalOrdering_sound c l hres) (hno l)
  | error e =>
    unfold SymbCircuit.layersTopologicalOrdering at hres
    cases hk : kahnAux (fun uid => c.inLayers.get uid)
        (reachAux (fun uid => c.inLayers.get uid)
          ((c.graphSize + 1) * (c.graphSize + 1)) [] c.outputLayers).length
        []
        (reachAux (fun uid => c.inLayers.get uid)
          ((c.graphSize + 1) * (c.graphSize + 1)) [] c.outputLayers) with
    | some l' =>
      rw [hk] at hres
      exact absurd hres (by simp)
    | none =>
      rw [hk] at hres
      simp only [Except.error.injEq] at hres
      rw [← hres]

/-- Witness for `layersTopologicalOrdering_contract`: the cyclic-circuit
hypothesis (no valid topological order exists) is discharged by
`exCyclic_no_validTopoOrder`, and the contract yields the `ValueError`. -/
theorem layersTopologicalOrdering_contract_witness :
    exCyclic.layersTopologicalOrdering = Except.error PyErr.valueError :=
  (layersTopologicalOrdering_contract exCyclic).2 exCyclic_no_validTopoOrder

theorem isCompatible_stub_evaluation :
    exChainA.isSmooth = true ∧ exChainA.isDecomposable = true ∧
      exChainB.isSmooth = true ∧ exChainB.isDecomposable = true ∧
      exChainA.productLayers = [] ∧ exChainB.productLayers = [] ∧
      exChainA.isCompatible exChainB none = false ∧
      multiply exChainA exChainB = Except.error PyErr.structuralPropertyError := by
  refine ⟨by decide, by decide, by decide, by decide, by decide, by decide,
    by decide, rfl⟩
